import Mathlib

/-!
# Message admission checks of the opchild module

A shallow embedding of `x/opchild/types/tx.go`: the message values, the
address codec they are checked against, the coin guard, the `Validate`
method of each message kind, the constructors and the unpacking of a batch,
followed by the properties proved about them.

Conventions of the embedding:

* a Go `error` result is an `Option Error`, `none` standing for `nil`;
* a Go call that may abort instead of returning (a nil dereference) lives in
  `Go α`, whose `.error` branch is the abort;
* a `uint64` is a `Nat` below `2 ^ 64`, a `[]byte` a list of naturals;
* a pointer that may be nil is an `Option`.
-/

namespace Opchild

/-! ## Errors -/

/-- Modelled from the spec: the module's own registered errors
`ErrEmptyValidatorPubKey`, `ErrInvalidAmount` and `ErrInvalidSequence`. Their
declarations are not part of the source tree; spec section 7 lists them as the
failure kinds EmptyPubKey, InvalidAmount and InvalidSequence. Each is
identified by its Go name, and the three are distinct errors. -/
inductive ModuleError where
  | ErrEmptyValidatorPubKey
  | ErrInvalidAmount
  | ErrInvalidSequence
  deriving DecidableEq

/-- Go error values, as far as the validators build and return them.

The first three constructors are the registered errors of the libraries the
file imports (`sdkerrors.ErrInvalidAddress`, `sdkerrors.ErrInvalidRequest`,
`govtypes.ErrNoProposalMsgs`), `module` is a registered error of this module,
`wrap parent msg` is `errors.Wrap(parent, msg)`, `wrapf parent format arg` is
`parent.Wrapf(format, arg)` with its one argument kept unformatted, and
`foreign text` is any other error (for instance one made by `errors.New`),
known by its text. -/
inductive Error where
  | ErrInvalidAddress
  | ErrInvalidRequest
  | ErrNoProposalMsgs
  | module (e : ModuleError)
  | wrap (parent : Error) (msg : String)
  | wrapf (parent : Error) (format : String) (arg : Error)
  | foreign (text : String)
  deriving DecidableEq

/-- The module error `ErrEmptyValidatorPubKey`. -/
abbrev ErrEmptyValidatorPubKey : Error := .module .ErrEmptyValidatorPubKey

/-- The module error `ErrInvalidAmount`. -/
abbrev ErrInvalidAmount : Error := .module .ErrInvalidAmount

/-- The module error `ErrInvalidSequence`. -/
abbrev ErrInvalidSequence : Error := .module .ErrInvalidSequence

/-- The test `errors.Is(e, target)`: `e` is `target`, or `e` wraps an error
that is. This is how a caller reads the kind of a failure. -/
def Error.Is : Error → Error → Bool
  | .wrap parent msg, target =>
      decide (Error.wrap parent msg = target) || parent.Is target
  | .wrapf parent format arg, target =>
      decide (Error.wrapf parent format arg = target) || parent.Is target
  | e, target => decide (e = target)

/-- An abort of a Go call: the call does not return. -/
inductive Fault where
  | nilPointerDereference
  deriving DecidableEq

/-- A Go computation: it returns a value or aborts. -/
abbrev Go (α : Type) := Except Fault α

/-! ## Address codec -/

/-- The `address.Codec` interface, as the validators use it: `StringToBytes`
returns the decoded bytes together with an error (`none` for `nil`). An
implementation is any such function; the validators look at the error only. -/
structure Codec where
  StringToBytes : String → List Nat × Option Error

/-- The codec accepts the address string: `StringToBytes` returns a nil error. -/
def Codec.accepts (c : Codec) (s : String) : Prop :=
  (c.StringToBytes s).2 = none

instance (c : Codec) (s : String) : Decidable (c.accepts s) :=
  inferInstanceAs (Decidable ((c.StringToBytes s).2 = none))

/-- A codec in the manner of the library's bech32 codec, for concrete inputs:
the empty string is refused with that codec's own plain error, a string that
starts with the expected human-readable part is accepted, any other string is
refused. -/
def sampleCodec (hrp : String) : Codec where
  StringToBytes := fun s =>
    if s.data = [] then ([], some (.foreign "empty address string is not allowed"))
    else if hrp.data.isPrefixOf s.data then (s.data.map Char.toNat, none)
    else ([], some (.foreign "decoding bech32 failed"))

/-! ## Coins -/

/-- The library type `sdk.Coin`: a denomination and an amount. The amount is a
`math.Int`, a wrapper of a big-integer pointer that is nil in the zero value
of the type, hence the `Option`. -/
structure Coin where
  Denom : String
  Amount : Option Int
  deriving DecidableEq

/-- First character of a denomination: the class `[a-zA-Z]`. -/
def isDenomStart (c : Char) : Bool := c.isAlpha

/-- Later characters of a denomination: the class `[a-zA-Z0-9/:._-]`. -/
def isDenomChar (c : Char) : Bool :=
  c.isAlphanum || c == '/' || c == ':' || c == '.' || c == '_' || c == '-'

/-- Whether the whole string matches the library's default denomination
pattern `[a-zA-Z][a-zA-Z0-9/:._-]{2,127}`. -/
def matchesDenom (denom : String) : Bool :=
  match denom.data with
  | [] => false
  | c :: rest =>
      isDenomStart c && decide (2 ≤ rest.length) && decide (rest.length ≤ 127)
        && rest.all isDenomChar

/-- The library function `sdk.ValidateDenom`. -/
def ValidateDenom (denom : String) : Option Error :=
  if matchesDenom denom then none else some (.foreign ("invalid denom: " ++ denom))

/-- The library method `Coin.Validate`: the denomination is checked first, then
that the amount is not nil, then that it is not negative. -/
def Coin.Validate (coin : Coin) : Option Error :=
  match ValidateDenom coin.Denom with
  | some err => some err
  | none =>
    match coin.Amount with
    | none => some (.foreign "amount is nil")
    | some a =>
      if a < 0 then some (.foreign ("negative coin amount: " ++ toString a)) else none

/-- The library method `Coin.IsValid`: `Validate` returns nil. -/
def Coin.IsValid (coin : Coin) : Bool := coin.Validate.isNone

/-- The library method `Coin.IsZero`: the sign of the amount is zero. It reads
through the amount pointer, so it aborts on a nil amount. -/
def Coin.IsZero (coin : Coin) : Go Bool :=
  match coin.Amount with
  | none => .error .nilPointerDereference
  | some a => .ok (decide (a = 0))

/-- The Go operator `a || b`: `b` is evaluated only when `a` is false. -/
def orElse (a : Bool) (b : Go Bool) : Go Bool :=
  if a then .ok true else b

/-! ## Messages -/

/-- The library type `codectypes.Any`: a type tag and the serialized value. -/
structure Any where
  TypeUrl : String
  Value : List Nat
  deriving DecidableEq

/-- Message `MsgExecuteMessages`; `Messages` is a slice of pointers, each of
which may be nil. -/
structure MsgExecuteMessages where
  Sender : String
  Messages : List (Option Any)
  deriving DecidableEq

/-- Message `MsgAddValidator`; `Pubkey` is a pointer, nil when absent. -/
structure MsgAddValidator where
  Moniker : String
  Authority : String
  ValidatorAddress : String
  Pubkey : Option Any
  deriving DecidableEq

/-- Message `MsgRemoveValidator`. -/
structure MsgRemoveValidator where
  Authority : String
  ValidatorAddress : String
  deriving DecidableEq

/-- Message `MsgInitiateTokenWithdrawal`. -/
structure MsgInitiateTokenWithdrawal where
  Sender : String
  To : String
  Amount : Coin
  deriving DecidableEq

/-- Message `MsgFinalizeTokenDeposit`; `Sequence` is a `uint64`. -/
structure MsgFinalizeTokenDeposit where
  Sender : String
  From : String
  To : String
  Amount : Coin
  Sequence : Nat
  Data : List Nat
  deriving DecidableEq

/-! ## Validators -/

/-- Method `MsgExecuteMessages.Validate`. -/
def MsgExecuteMessages.Validate (msg : MsgExecuteMessages) (ac : Codec) : Option Error :=
  match (ac.StringToBytes msg.Sender).2 with
  | some err => some err
  | none =>
    if msg.Messages.length = 0 then
      some (.wrap .ErrNoProposalMsgs "Msgs length must be non-zero")
    else
      none

/-- Method `MsgAddValidator.Validate`. -/
def MsgAddValidator.Validate (msg : MsgAddValidator) (ac vc : Codec) : Option Error :=
  match (ac.StringToBytes msg.Authority).2 with
  | some err => some (.wrapf .ErrInvalidAddress "invalid delegator address: %s" err)
  | none =>
    match (vc.StringToBytes msg.ValidatorAddress).2 with
    | some err => some (.wrapf .ErrInvalidAddress "invalid validator address: %s" err)
    | none =>
      if msg.Pubkey = none then
        some ErrEmptyValidatorPubKey
      else
        none

/-- Method `MsgRemoveValidator.Validate`. -/
def MsgRemoveValidator.Validate (msg : MsgRemoveValidator) (ac vc : Codec) : Option Error :=
  match (ac.StringToBytes msg.Authority).2 with
  | some err => some err
  | none =>
    match (vc.StringToBytes msg.ValidatorAddress).2 with
    | some err => some err
    | none => none

/-- Method `MsgInitiateTokenWithdrawal.Validate`. The amount test is
`!msg.Amount.IsValid() || msg.Amount.IsZero()`. -/
def MsgInitiateTokenWithdrawal.Validate (msg : MsgInitiateTokenWithdrawal) (ac : Codec) :
    Go (Option Error) :=
  match (ac.StringToBytes msg.Sender).2 with
  | some err => .ok (some err)
  | none =>
    match (ac.StringToBytes msg.To).2 with
    | some err => .ok (some err)
    | none =>
      match orElse (!msg.Amount.IsValid) msg.Amount.IsZero with
      | .error f => .error f
      | .ok true => .ok (some ErrInvalidAmount)
      | .ok false => .ok none

/-- Method `MsgFinalizeTokenDeposit.Validate`. -/
def MsgFinalizeTokenDeposit.Validate (msg : MsgFinalizeTokenDeposit) (ac : Codec) :
    Go (Option Error) :=
  match (ac.StringToBytes msg.Sender).2 with
  | some err => .ok (some err)
  | none =>
    match (ac.StringToBytes msg.From).2 with
    | some err => .ok (some err)
    | none =>
      match (ac.StringToBytes msg.To).2 with
      | some err => .ok (some err)
      | none =>
        match orElse (!msg.Amount.IsValid) msg.Amount.IsZero with
        | .error f => .error f
        | .ok true => .ok (some ErrInvalidAmount)
        | .ok false =>
          if msg.Sequence = 0 then
            .ok (some ErrInvalidSequence)
          else
            .ok none

/-! ## Fee pool spending -/

/-- The library type `sdk.Coins`: a slice of coins. -/
abbrev Coins := List Coin

/-- The library method `Coin.IsPositive`: the sign of the amount is one. It
reads through the amount pointer, so it aborts on a nil amount. -/
def Coin.IsPositive (coin : Coin) : Go Bool :=
  match coin.Amount with
  | none => .error .nilPointerDereference
  | some a => .ok (decide (0 < a))

/-- The loop of the library method `Coins.Validate` over the coins after the
first, `lowDenom` being the denomination of the coin before: each
denomination is well formed and strictly above the one before, and each
amount is positive. Go orders strings byte by byte, which on well-formed text
is the order of the character lists. -/
def Coins.validateRest (lowDenom : String) : List Coin → Go (Option Error)
  | [] => .ok none
  | coin :: rest =>
    match ValidateDenom coin.Denom with
    | some err => .ok (some err)
    | none =>
      if coin.Denom.data < lowDenom.data then
        .ok (some (.foreign ("denomination " ++ coin.Denom ++ " is not sorted")))
      else if coin.Denom = lowDenom then
        .ok (some (.foreign ("duplicate denomination " ++ coin.Denom)))
      else
        match coin.IsPositive with
        | .error f => .error f
        | .ok false => .ok (some (.foreign ("coin " ++ coin.Denom ++ " amount is not positive")))
        | .ok true => Coins.validateRest coin.Denom rest

/-- The library method `Coins.Validate`: no coins are valid; otherwise the
first coin has a well-formed denomination and a positive amount, and the
others are checked by the loop. -/
def Coins.Validate : Coins → Go (Option Error)
  | [] => .ok none
  | coin :: rest =>
    match ValidateDenom coin.Denom with
    | some err => .ok (some err)
    | none =>
      match coin.IsPositive with
      | .error f => .error f
      | .ok false => .ok (some (.foreign ("coin " ++ coin.Denom ++ " amount is not positive")))
      | .ok true => Coins.validateRest coin.Denom rest

/-- The library method `Coins.IsValid`: `Validate` returns nil. -/
def Coins.IsValid (coins : Coins) : Go Bool :=
  match Coins.Validate coins with
  | .error f => .error f
  | .ok r => .ok r.isNone

/-- The library method `Coins.IsZero`: every coin is zero; the loop stops at
the first coin that is not. -/
def Coins.IsZero : Coins → Go Bool
  | [] => .ok true
  | coin :: rest =>
    match coin.IsZero with
    | .error f => .error f
    | .ok false => .ok false
    | .ok true => Coins.IsZero rest

/-- Message `MsgSpendFeePool`. -/
structure MsgSpendFeePool where
  Authority : String
  Recipient : String
  Amount : Coins
  deriving DecidableEq

/-- Method `MsgSpendFeePool.Validate`. -/
def MsgSpendFeePool.Validate (msg : MsgSpendFeePool) (ac : Codec) : Go (Option Error) :=
  match (ac.StringToBytes msg.Authority).2 with
  | some err => .ok (some err)
  | none =>
    match (ac.StringToBytes msg.Recipient).2 with
    | some err => .ok (some err)
    | none =>
      match Coins.IsValid msg.Amount with
      | .error f => .error f
      | .ok false => .ok (some (.wrap .ErrInvalidRequest "invalid spend amount"))
      | .ok true => .ok none

/-! ## Parameter updates -/

/-- Dereference of a Go pointer: the value it points to, an abort on nil. -/
def deref {α : Type} (p : Option α) : Go α :=
  match p with
  | none => .error .nilPointerDereference
  | some v => .ok v

/-- Modelled from the spec: the module's `Params`, whose declaration and
`Validate` method are in the module's parameter file and not part of the
source tree. Spec section 3 presents it as an opaque aggregate that this layer
does not inspect, a capability object exposing its own
`Validate(addressCodec)` contract, and section 4.3 gives that contract the
shape `error|nil`; so the object is its validation function. -/
structure Params where
  Validate : Codec → Option Error

/-- Message `MsgUpdateParams`; `Params` is a pointer, nil when absent. -/
structure MsgUpdateParams where
  Authority : String
  Params : Option Params

/-- Constructor `NewMsgUpdateParams`. -/
def NewMsgUpdateParams (authority : String) (params : Option Params) : MsgUpdateParams :=
  { Authority := authority, Params := params }

/-- Method `MsgUpdateParams.Validate`. The call `msg.Params.Validate(ac)` goes
through the pointer `msg.Params` to the object whose method is called. -/
def MsgUpdateParams.Validate (msg : MsgUpdateParams) (ac : Codec) : Go (Option Error) :=
  match (ac.StringToBytes msg.Authority).2 with
  | some err => .ok (some err)
  | none =>
    match deref msg.Params with
    | .error f => .error f
    | .ok params =>
      match params.Validate ac with
      | some err => .ok (some err)
      | none => .ok none

/-! ## Constructors -/

/-- Constructor `NewMsgRemoveValidator`: the message and a nil error. -/
def NewMsgRemoveValidator (authority valAddr : String) :
    Option MsgRemoveValidator × Option Error :=
  (some { Authority := authority, ValidatorAddress := valAddr }, none)

/-- Constructor `NewMsgInitiateTokenWithdrawal`. -/
def NewMsgInitiateTokenWithdrawal (sender toAddr : String) (amount : Coin) :
    MsgInitiateTokenWithdrawal :=
  { Sender := sender, To := toAddr, Amount := amount }

/-- Constructor `NewMsgFinalizeTokenDeposit`. -/
def NewMsgFinalizeTokenDeposit (sender fromAddr toAddr : String) (amount : Coin)
    (sequence : Nat) (data : List Nat) : MsgFinalizeTokenDeposit :=
  { Sender := sender, From := fromAddr, To := toAddr, Amount := amount,
    Sequence := sequence, Data := data }

/-- The library function `sdktx.SetMsgs`: each message is packed in turn, the
first packing error ends the loop and is returned with a nil slice. The
packing function `codectypes.NewAnyWithValue` is taken as given: `pack v` is
the pointer and the error it returns for the value `v`. -/
def sdktx.SetMsgs {V : Type} (pack : V → Option Any × Option Error) :
    List V → List (Option Any) × Option Error
  | [] => ([], none)
  | msg :: rest =>
    match pack msg with
    | (_, some err) => ([], some err)
    | (any, none) =>
      match sdktx.SetMsgs pack rest with
      | (_, some err) => ([], some err)
      | (anys, none) => (any :: anys, none)

/-- Constructor `NewMsgExecuteMessages`. -/
def NewMsgExecuteMessages {V : Type} (pack : V → Option Any × Option Error)
    (sender : String) (messages : List V) : Option MsgExecuteMessages × Option Error :=
  match sdktx.SetMsgs pack messages with
  | (_, some err) => (none, some err)
  | (anys, none) => (some { Sender := sender, Messages := anys }, none)

/-- Constructor `NewMsgAddValidator`; `pubKey` is an interface value, nil when
`none`, and `pack` is `codectypes.NewAnyWithValue` on keys. -/
def NewMsgAddValidator {K : Type} (pack : K → Option Any × Option Error)
    (moniker authority valAddr : String) (pubKey : Option K) :
    Option MsgAddValidator × Option Error :=
  match pubKey with
  | none =>
    (some { Moniker := moniker, Authority := authority, ValidatorAddress := valAddr,
            Pubkey := none }, none)
  | some key =>
    match pack key with
    | (_, some err) => (none, some err)
    | (pkAny, none) =>
      (some { Moniker := moniker, Authority := authority, ValidatorAddress := valAddr,
              Pubkey := pkAny }, none)

/-! ## Unpacking -/

/-- The `codectypes.AnyUnpacker` interface, as `UnpackInterfaces` uses it:
`UnpackAny` resolves one payload as a sub-message and returns an error
(`none` for `nil`). -/
structure AnyUnpacker where
  UnpackAny : Option Any → Option Error

/-- The library function `sdktx.UnpackInterfaces`: each payload is unpacked in
turn, the first error ends the loop and is returned. -/
def sdktx.UnpackInterfaces (unpacker : AnyUnpacker) : List (Option Any) → Option Error
  | [] => none
  | any :: rest =>
    match unpacker.UnpackAny any with
    | some err => some err
    | none => sdktx.UnpackInterfaces unpacker rest

/-- Method `MsgExecuteMessages.UnpackInterfaces`. -/
def MsgExecuteMessages.UnpackInterfaces (m : MsgExecuteMessages) (unpacker : AnyUnpacker) :
    Option Error :=
  sdktx.UnpackInterfaces unpacker m.Messages

/-- An unpacker in the manner of the library's interface registry, for
concrete inputs: a nil payload is passed over, a payload whose type tag is
registered is resolved, any other is refused. -/
def sampleUnpacker (registered : List String) : AnyUnpacker where
  UnpackAny := fun any =>
    match any with
    | none => none
    | some a =>
      if a.TypeUrl ∈ registered then none
      else some (.foreign ("no concrete type registered for type URL " ++ a.TypeUrl))

/-- A packing function for concrete inputs: a value is a type name and its
bytes, and packing refuses the empty type name. -/
def samplePack (v : String × List Nat) : Option Any × Option Error :=
  if v.1.data = [] then (none, some (.foreign "cannot pack a value without a type"))
  else (some { TypeUrl := "/" ++ v.1, Value := v.2 }, none)

/-! ## The checks in the words of the specification -/

/-- The failure of the first violated check of a list of checks taken in
order, nil when no check is violated. -/
def firstFailure : List (Option Error) → Option Error
  | [] => none
  | some err :: _ => some err
  | none :: rest => firstFailure rest

/-- The amount check of the two bridge transfers in the words of the
specification: the coin is not valid, or its amount is zero. -/
def amountCheck (coin : Coin) : Option Error :=
  if coin.IsValid = false ∨ coin.Amount = some 0 then some ErrInvalidAmount else none

/-- The sequence check in the words of the specification: zero is refused. -/
def sequenceCheck (sequence : Nat) : Option Error :=
  if sequence = 0 then some ErrInvalidSequence else none

/-! ## Auxiliary facts -/

theorem Coin.isValid_nil_amount (denom : String) :
    Coin.IsValid ⟨denom, none⟩ = false := by
  unfold Coin.IsValid Coin.Validate
  cases ValidateDenom denom <;> rfl

theorem Coin.isValid_iff (coin : Coin) :
    coin.IsValid = true ↔
      ValidateDenom coin.Denom = none ∧ ∃ a, coin.Amount = some a ∧ 0 ≤ a := by
  obtain ⟨denom, amount⟩ := coin
  unfold Coin.IsValid Coin.Validate
  cases hd : ValidateDenom denom with
  | some err => simp
  | none =>
    cases amount with
    | none => simp
    | some a =>
      by_cases ha : a < 0
      · simp [ha]
      · simp [ha]; omega

/-- The guarded test `!IsValid() || IsZero()` always returns: on a nil amount
the coin is already not valid, so `IsZero` is not reached. -/
theorem orElse_amount (coin : Coin) :
    orElse (!coin.IsValid) coin.IsZero
      = .ok (decide (coin.IsValid = false ∨ coin.Amount = some 0)) := by
  obtain ⟨denom, amount⟩ := coin
  cases amount with
  | none => simp [orElse, Coin.isValid_nil_amount]
  | some a =>
    cases hv : Coin.IsValid ⟨denom, some a⟩ <;> simp [orElse, Coin.IsZero, hv]

theorem firstFailure_eq_none (checks : List (Option Error)) :
    firstFailure checks = none ↔ ∀ c ∈ checks, c = none := by
  induction checks with
  | nil => simp [firstFailure]
  | cons c rest ih => cases c <;> simp [firstFailure, ih]

theorem sequenceCheck_eq_none (sequence : Nat) :
    sequenceCheck sequence = none ↔ sequence ≠ 0 := by
  unfold sequenceCheck
  by_cases h : sequence = 0 <;> simp [h]

theorem amountCheck_eq_none (coin : Coin) :
    amountCheck coin = none ↔ coin.IsValid = true ∧ coin.Amount ≠ some 0 := by
  unfold amountCheck
  cases hv : coin.IsValid <;> by_cases hz : coin.Amount = some 0 <;> simp [hz]

theorem initiateTokenWithdrawal_validate_eq (msg : MsgInitiateTokenWithdrawal)
    (ac : Codec) :
    msg.Validate ac = .ok (firstFailure
      [(ac.StringToBytes msg.Sender).2, (ac.StringToBytes msg.To).2,
        amountCheck msg.Amount]) := by
  unfold MsgInitiateTokenWithdrawal.Validate
  rw [orElse_amount]
  cases (ac.StringToBytes msg.Sender).2 <;> cases (ac.StringToBytes msg.To).2 <;>
    by_cases h : msg.Amount.IsValid = false ∨ msg.Amount.Amount = some 0 <;>
    simp [firstFailure, amountCheck, h]

theorem finalizeTokenDeposit_validate_eq (msg : MsgFinalizeTokenDeposit) (ac : Codec) :
    msg.Validate ac = .ok (firstFailure
      [(ac.StringToBytes msg.Sender).2, (ac.StringToBytes msg.From).2,
        (ac.StringToBytes msg.To).2, amountCheck msg.Amount,
        sequenceCheck msg.Sequence]) := by
  unfold MsgFinalizeTokenDeposit.Validate
  rw [orElse_amount]
  cases (ac.StringToBytes msg.Sender).2 <;> cases (ac.StringToBytes msg.From).2 <;>
    cases (ac.StringToBytes msg.To).2 <;>
    by_cases h : msg.Amount.IsValid = false ∨ msg.Amount.Amount = some 0 <;>
    by_cases hs : msg.Sequence = 0 <;>
    simp [firstFailure, amountCheck, sequenceCheck, h, hs]

/-! ## Token deposits and withdrawals -/

/-- C1: `MsgFinalizeTokenDeposit.Validate` returns the failure of the first
violated check in the order sender, from, to, amount, sequence, the address
failures being the codec's own errors, the amount failure `ErrInvalidAmount`
and the sequence failure `ErrInvalidSequence`. It returns nil exactly when the
three addresses are accepted, the amount is valid and not zero and the
sequence is not zero. When the amount is zero the sequence check is never
reached, whatever the sequence: the result is the first address failure, or
`ErrInvalidAmount` when there is none; so with accepted addresses a zero amount
together with a zero sequence fails with `ErrInvalidAmount`, not
`ErrInvalidSequence`. -/
theorem finalizeTokenDeposit_validate_first_failure
    (msg : MsgFinalizeTokenDeposit) (ac : Codec) :
    msg.Validate ac = .ok (firstFailure
        [(ac.StringToBytes msg.Sender).2, (ac.StringToBytes msg.From).2,
          (ac.StringToBytes msg.To).2,
          (if msg.Amount.IsValid = false ∨ msg.Amount.Amount = some 0
            then some ErrInvalidAmount else none),
          (if msg.Sequence = 0 then some ErrInvalidSequence else none)])
    ∧ (msg.Validate ac = .ok none ↔
        ac.accepts msg.Sender ∧ ac.accepts msg.From ∧ ac.accepts msg.To
          ∧ (msg.Amount.IsValid = true ∧ msg.Amount.Amount ≠ some 0)
          ∧ msg.Sequence ≠ 0)
    ∧ (msg.Amount.Amount = some 0 →
        msg.Validate ac = .ok (firstFailure
          [(ac.StringToBytes msg.Sender).2, (ac.StringToBytes msg.From).2,
            (ac.StringToBytes msg.To).2, some ErrInvalidAmount]))
    ∧ (ac.accepts msg.Sender → ac.accepts msg.From → ac.accepts msg.To →
        msg.Amount.Amount = some 0 → msg.Sequence = 0 →
        msg.Validate ac = .ok (some ErrInvalidAmount)
          ∧ msg.Validate ac ≠ .ok (some ErrInvalidSequence)) := by
  have key := finalizeTokenDeposit_validate_eq msg ac
  refine ⟨key, ?_, ?_, ?_⟩
  · rw [key, Except.ok.injEq, firstFailure_eq_none]
    simp [Codec.accepts, amountCheck_eq_none, sequenceCheck_eq_none]
  · intro hz
    rw [key]
    cases (ac.StringToBytes msg.Sender).2 <;> cases (ac.StringToBytes msg.From).2 <;>
      cases (ac.StringToBytes msg.To).2 <;> simp [firstFailure, amountCheck, hz]
  · intro h1 h2 h3 hz hs
    simp only [Codec.accepts] at h1 h2 h3
    rw [key, h1, h2, h3]
    simp [firstFailure, amountCheck, hz]

/-- Witness of C1: a deposit between accepted addresses with 0 uinit and
sequence 0 fails on the amount. -/
theorem finalizeTokenDeposit_validate_first_failure_witness :
    MsgFinalizeTokenDeposit.Validate
        ⟨"acc1a", "acc1b", "acc1c", ⟨"uinit", some 0⟩, 0, []⟩ (sampleCodec "acc")
        = .ok (some ErrInvalidAmount)
    ∧ MsgFinalizeTokenDeposit.Validate
        ⟨"acc1a", "acc1b", "acc1c", ⟨"uinit", some 0⟩, 0, []⟩ (sampleCodec "acc")
        ≠ .ok (some ErrInvalidSequence) :=
  (finalizeTokenDeposit_validate_first_failure
    ⟨"acc1a", "acc1b", "acc1c", ⟨"uinit", some 0⟩, 0, []⟩ (sampleCodec "acc")).2.2.2
    (by decide) (by decide) (by decide) rfl rfl

/-- C2: for a deposit whose three addresses are accepted and whose amount is
valid and not zero, `Validate` fails with `ErrInvalidSequence` at sequence 0
and returns nil at every sequence from 1 to the largest `uint64`; the sequence
number is constrained in no other way. -/
theorem finalizeTokenDeposit_sequence_nonzero
    (msg : MsgFinalizeTokenDeposit) (ac : Codec)
    (hs : ac.accepts msg.Sender) (hf : ac.accepts msg.From) (ht : ac.accepts msg.To)
    (hv : msg.Amount.IsValid = true) (hz : msg.Amount.Amount ≠ some 0) :
    MsgFinalizeTokenDeposit.Validate { msg with Sequence := 0 } ac
        = .ok (some ErrInvalidSequence)
    ∧ ∀ sequence : Nat, 1 ≤ sequence → sequence ≤ 2 ^ 64 - 1 →
        MsgFinalizeTokenDeposit.Validate { msg with Sequence := sequence } ac
          = .ok none := by
  simp only [Codec.accepts] at hs hf ht
  have ha : amountCheck msg.Amount = none := (amountCheck_eq_none _).2 ⟨hv, hz⟩
  constructor
  · rw [finalizeTokenDeposit_validate_eq]
    simp [firstFailure, hs, hf, ht, ha, sequenceCheck]
  · intro sequence h1 _
    have hq : sequenceCheck sequence = none := (sequenceCheck_eq_none _).2 (by omega)
    rw [finalizeTokenDeposit_validate_eq]
    simp [firstFailure, hs, hf, ht, ha, hq]

/-- Witness of C2: a deposit of 7 uinit between accepted addresses fails at
sequence 0 and passes at every other `uint64` sequence. -/
theorem finalizeTokenDeposit_sequence_nonzero_witness :
    MsgFinalizeTokenDeposit.Validate
        ⟨"acc1a", "acc1b", "acc1c", ⟨"uinit", some 7⟩, 0, []⟩ (sampleCodec "acc")
        = .ok (some ErrInvalidSequence)
    ∧ ∀ sequence : Nat, 1 ≤ sequence → sequence ≤ 2 ^ 64 - 1 →
        MsgFinalizeTokenDeposit.Validate
          ⟨"acc1a", "acc1b", "acc1c", ⟨"uinit", some 7⟩, sequence, []⟩ (sampleCodec "acc")
          = .ok none :=
  finalizeTokenDeposit_sequence_nonzero
    ⟨"acc1a", "acc1b", "acc1c", ⟨"uinit", some 7⟩, 5, []⟩ (sampleCodec "acc")
    (by decide) (by decide) (by decide) (by decide) (by decide)

/-- C3: `MsgInitiateTokenWithdrawal.Validate` returns nil exactly when the
codec accepts the sender and the recipient and the amount is valid and not
zero; with both addresses accepted and the amount not valid or zero it returns
`ErrInvalidAmount`. With accepted sender and recipient, 0 uinit fails with
`ErrInvalidAmount` and 100 uinit succeeds. -/
theorem initiateTokenWithdrawal_validate_iff
    (msg : MsgInitiateTokenWithdrawal) (ac : Codec) :
    (msg.Validate ac = .ok none ↔
        ac.accepts msg.Sender ∧ ac.accepts msg.To
          ∧ msg.Amount.IsValid = true ∧ msg.Amount.Amount ≠ some 0)
    ∧ (ac.accepts msg.Sender → ac.accepts msg.To →
        (msg.Amount.IsValid = false ∨ msg.Amount.Amount = some 0) →
        msg.Validate ac = .ok (some ErrInvalidAmount))
    ∧ (ac.accepts msg.Sender → ac.accepts msg.To →
        MsgInitiateTokenWithdrawal.Validate
            { msg with Amount := ⟨"uinit", some 0⟩ } ac = .ok (some ErrInvalidAmount)
        ∧ MsgInitiateTokenWithdrawal.Validate
            { msg with Amount := ⟨"uinit", some 100⟩ } ac = .ok none) := by
  have key := initiateTokenWithdrawal_validate_eq msg ac
  refine ⟨?_, ?_, ?_⟩
  · rw [key, Except.ok.injEq, firstFailure_eq_none]
    simp [Codec.accepts, amountCheck_eq_none]
  · intro h1 h2 hbad
    simp only [Codec.accepts] at h1 h2
    rw [key, h1, h2]
    simp [firstFailure, amountCheck, hbad]
  · intro h1 h2
    simp only [Codec.accepts] at h1 h2
    constructor
    · rw [initiateTokenWithdrawal_validate_eq]
      simp [firstFailure, amountCheck, h1, h2]
    · rw [initiateTokenWithdrawal_validate_eq]
      have hv : Coin.IsValid ⟨"uinit", some 100⟩ = true := by decide
      simp [firstFailure, amountCheck, h1, h2, hv]

/-- Witness of C3: the scenario of the specification, with the sample codec
for the account namespace. -/
theorem initiateTokenWithdrawal_validate_iff_witness :
    MsgInitiateTokenWithdrawal.Validate
        ⟨"acc1sender", "acc2recipient", ⟨"uinit", some 0⟩⟩ (sampleCodec "acc")
        = .ok (some ErrInvalidAmount)
    ∧ MsgInitiateTokenWithdrawal.Validate
        ⟨"acc1sender", "acc2recipient", ⟨"uinit", some 100⟩⟩ (sampleCodec "acc")
        = .ok none :=
  (initiateTokenWithdrawal_validate_iff
    ⟨"acc1sender", "acc2recipient", ⟨"uinit", none⟩⟩ (sampleCodec "acc")).2.2
    (by decide) (by decide)

/-- C4: a withdrawal or a deposit that `Validate` accepts carries a strictly
positive amount of a well-formed denomination. With the addresses accepted, an
amount that is zero or negative is refused with `ErrInvalidAmount` (for the
deposit at every sequence number), and a positive amount of a valid
denomination passes the amount check: the withdrawal is accepted, and the
deposit is left to its sequence check. -/
theorem bridge_amount_strictly_positive
    (w : MsgInitiateTokenWithdrawal) (d : MsgFinalizeTokenDeposit) (ac : Codec) :
    (w.Validate ac = .ok none →
        ∃ a : Int, w.Amount.Amount = some a ∧ 0 < a ∧ ValidateDenom w.Amount.Denom = none)
    ∧ (d.Validate ac = .ok none →
        ∃ a : Int, d.Amount.Amount = some a ∧ 0 < a ∧ ValidateDenom d.Amount.Denom = none)
    ∧ (ac.accepts w.Sender → ac.accepts w.To →
        ∀ a : Int, w.Amount.Amount = some a → a ≤ 0 →
          w.Validate ac = .ok (some ErrInvalidAmount))
    ∧ (ac.accepts d.Sender → ac.accepts d.From → ac.accepts d.To →
        ∀ a : Int, d.Amount.Amount = some a → a ≤ 0 →
          d.Validate ac = .ok (some ErrInvalidAmount))
    ∧ (ac.accepts w.Sender → ac.accepts w.To →
        ∀ a : Int, w.Amount.Amount = some a → 0 < a →
          ValidateDenom w.Amount.Denom = none → w.Validate ac = .ok none)
    ∧ (ac.accepts d.Sender → ac.accepts d.From → ac.accepts d.To →
        ∀ a : Int, d.Amount.Amount = some a → 0 < a →
          ValidateDenom d.Amount.Denom = none →
          d.Validate ac
            = .ok (if d.Sequence = 0 then some ErrInvalidSequence else none)) := by
  have positive : ∀ coin : Coin, amountCheck coin = none →
      ∃ a : Int, coin.Amount = some a ∧ 0 < a ∧ ValidateDenom coin.Denom = none := by
    intro coin h
    obtain ⟨hv, hz⟩ := (amountCheck_eq_none coin).1 h
    obtain ⟨hd, a, ha, hpos⟩ := (Coin.isValid_iff coin).1 hv
    refine ⟨a, ha, ?_, hd⟩
    have : a ≠ 0 := fun h0 => hz (by rw [ha, h0])
    omega
  have refused : ∀ (coin : Coin) (a : Int), coin.Amount = some a → a ≤ 0 →
      amountCheck coin = some ErrInvalidAmount := by
    intro coin a ha hle
    cases hc : amountCheck coin with
    | some err =>
      unfold amountCheck at hc
      split at hc
      · exact hc.symm
      · exact absurd hc (by simp)
    | none =>
      obtain ⟨b, hb, hpos, _⟩ := positive coin hc
      rw [ha] at hb
      cases hb
      omega
  have passes : ∀ (coin : Coin) (a : Int), coin.Amount = some a → 0 < a →
      ValidateDenom coin.Denom = none → amountCheck coin = none := by
    intro coin a ha hpos hd
    refine (amountCheck_eq_none coin).2 ⟨(Coin.isValid_iff coin).2 ⟨hd, a, ha, by omega⟩, ?_⟩
    rw [ha]
    intro h0
    cases h0
    omega
  have kw := initiateTokenWithdrawal_validate_eq w ac
  have kd := finalizeTokenDeposit_validate_eq d ac
  simp only [Codec.accepts]
  refine ⟨?_, ?_, ?_, ?_, ?_, ?_⟩
  · intro h
    rw [kw, Except.ok.injEq, firstFailure_eq_none] at h
    exact positive _ (h _ (by simp))
  · intro h
    rw [kd, Except.ok.injEq, firstFailure_eq_none] at h
    exact positive _ (h _ (by simp))
  · intro h1 h2 a ha hle
    rw [kw, h1, h2, refused _ a ha hle]
    rfl
  · intro h1 h2 h3 a ha hle
    rw [kd, h1, h2, h3, refused _ a ha hle]
    rfl
  · intro h1 h2 a ha hpos hd
    rw [kw, h1, h2, passes _ a ha hpos hd]
    rfl
  · intro h1 h2 h3 a ha hpos hd
    rw [kd, h1, h2, h3, passes _ a ha hpos hd]
    by_cases hq : d.Sequence = 0 <;> simp [firstFailure, sequenceCheck, hq]

/-- Witness of C4: with accepted addresses, -3 uinit is refused on both
messages, and 5 uinit passes the amount check of both. -/
theorem bridge_amount_strictly_positive_witness :
    MsgInitiateTokenWithdrawal.Validate
        ⟨"acc1a", "acc1b", ⟨"uinit", some (-3)⟩⟩ (sampleCodec "acc")
        = .ok (some ErrInvalidAmount)
    ∧ MsgFinalizeTokenDeposit.Validate
        ⟨"acc1a", "acc1b", "acc1c", ⟨"uinit", some (-3)⟩, 9, []⟩ (sampleCodec "acc")
        = .ok (some ErrInvalidAmount)
    ∧ MsgInitiateTokenWithdrawal.Validate
        ⟨"acc1a", "acc1b", ⟨"uinit", some 5⟩⟩ (sampleCodec "acc") = .ok none
    ∧ MsgFinalizeTokenDeposit.Validate
        ⟨"acc1a", "acc1b", "acc1c", ⟨"uinit", some 5⟩, 9, []⟩ (sampleCodec "acc")
        = .ok none :=
  ⟨(bridge_amount_strictly_positive ⟨"acc1a", "acc1b", ⟨"uinit", some (-3)⟩⟩
      ⟨"acc1a", "acc1b", "acc1c", ⟨"uinit", some (-3)⟩, 9, []⟩ (sampleCodec "acc")).2.2.1
      (by decide) (by decide) (-3) rfl (by decide),
    (bridge_amount_strictly_positive ⟨"acc1a", "acc1b", ⟨"uinit", some (-3)⟩⟩
      ⟨"acc1a", "acc1b", "acc1c", ⟨"uinit", some (-3)⟩, 9, []⟩ (sampleCodec "acc")).2.2.2.1
      (by decide) (by decide) (by decide) (-3) rfl (by decide),
    (bridge_amount_strictly_positive ⟨"acc1a", "acc1b", ⟨"uinit", some 5⟩⟩
      ⟨"acc1a", "acc1b", "acc1c", ⟨"uinit", some 5⟩, 9, []⟩ (sampleCodec "acc")).2.2.2.2.1
      (by decide) (by decide) 5 rfl (by decide) (by decide),
    (bridge_amount_strictly_positive ⟨"acc1a", "acc1b", ⟨"uinit", some 5⟩⟩
      ⟨"acc1a", "acc1b", "acc1c", ⟨"uinit", some 5⟩, 9, []⟩ (sampleCodec "acc")).2.2.2.2.2
      (by decide) (by decide) (by decide) 5 rfl (by decide) (by decide)⟩

/-! ## Batched execution -/

/-- C5, as stated, fails: an empty batch whose sender the codec refuses is
rejected with the codec's error, which is not the empty-batch failure. -/
theorem executeMessages_empty_batch_counterexample :
    MsgExecuteMessages.Validate ⟨"", []⟩ (sampleCodec "acc")
        = some (.foreign "empty address string is not allowed")
    ∧ MsgExecuteMessages.Validate ⟨"", []⟩ (sampleCodec "acc")
        ≠ some (.wrap .ErrNoProposalMsgs "Msgs length must be non-zero")
    ∧ ¬ ∃ err, MsgExecuteMessages.Validate ⟨"", []⟩ (sampleCodec "acc") = some err
        ∧ err.Is .ErrNoProposalMsgs = true := by
  refine ⟨rfl, by decide, ?_⟩
  rintro ⟨err, h, hk⟩
  have he : err = .foreign "empty address string is not allowed" :=
    (Option.some.inj h).symm
  rw [he] at hk
  exact absurd hk (by decide)

/-- C5, amended: a message with an empty batch is rejected for every sender
and every codec; the failure is the empty-batch failure
(`govtypes.ErrNoProposalMsgs` wrapped with "Msgs length must be non-zero")
whenever the codec accepts the sender, and the codec's error for the sender
otherwise. -/
theorem executeMessages_empty_batch
    (msg : MsgExecuteMessages) (ac : Codec) (hempty : msg.Messages = []) :
    msg.Validate ac ≠ none
    ∧ (ac.accepts msg.Sender →
        msg.Validate ac = some (.wrap .ErrNoProposalMsgs "Msgs length must be non-zero")
        ∧ (Error.wrap .ErrNoProposalMsgs "Msgs length must be non-zero").Is
            .ErrNoProposalMsgs = true)
    ∧ (∀ err, (ac.StringToBytes msg.Sender).2 = some err → msg.Validate ac = some err) := by
  unfold MsgExecuteMessages.Validate Codec.accepts
  cases h : (ac.StringToBytes msg.Sender).2 with
  | none => simp [hempty, Error.Is]
  | some e => simp

/-- Witness of C5, amended: the empty batch of an accepted sender. -/
theorem executeMessages_empty_batch_witness :
    MsgExecuteMessages.Validate ⟨"acc1sender", []⟩ (sampleCodec "acc")
      = some (.wrap .ErrNoProposalMsgs "Msgs length must be non-zero") :=
  ((executeMessages_empty_batch ⟨"acc1sender", []⟩ (sampleCodec "acc") rfl).2.1
    (by decide)).1

/-- C6: `MsgExecuteMessages.Validate` returns the codec's error when the
codec refuses the sender, otherwise the empty-batch failure when the batch has
length 0, otherwise nil. So two messages with the same sender whose batches
are both empty or both non-empty get the same result, and a message with an
accepted sender and at least one entry is accepted whatever its entries are
(a nil entry, any type tag, any bytes). -/
theorem executeMessages_validate_sender_and_emptiness
    (msg : MsgExecuteMessages) (ac : Codec) :
    msg.Validate ac = firstFailure
        [(ac.StringToBytes msg.Sender).2,
          (if msg.Messages.length = 0
            then some (.wrap .ErrNoProposalMsgs "Msgs length must be non-zero")
            else none)]
    ∧ (∀ other : MsgExecuteMessages, other.Sender = msg.Sender →
        (other.Messages = [] ↔ msg.Messages = []) →
        other.Validate ac = msg.Validate ac)
    ∧ (ac.accepts msg.Sender → ∀ (entry : Option Any) (entries : List (Option Any)),
        MsgExecuteMessages.Validate ⟨msg.Sender, entry :: entries⟩ ac = none) := by
  refine ⟨?_, ?_, ?_⟩
  · unfold MsgExecuteMessages.Validate
    cases (ac.StringToBytes msg.Sender).2 <;>
      by_cases h : msg.Messages.length = 0 <;> simp [firstFailure, h]
  · intro other hs he
    unfold MsgExecuteMessages.Validate
    rw [hs]
    simp only [List.length_eq_zero, he]
  · intro h entry entries
    simp only [Codec.accepts] at h
    simp [MsgExecuteMessages.Validate, h]

/-- Witness of C6: a batch of an accepted sender holding a nil entry and an
entry of an unknown type with arbitrary bytes is accepted. -/
theorem executeMessages_validate_sender_and_emptiness_witness :
    MsgExecuteMessages.Validate
      ⟨"acc1sender", [none, some ⟨"/no.such.Type", [255, 0, 7]⟩]⟩ (sampleCodec "acc")
      = none :=
  (executeMessages_validate_sender_and_emptiness ⟨"acc1sender", []⟩
    (sampleCodec "acc")).2.2 (by decide) none [some ⟨"/no.such.Type", [255, 0, 7]⟩]

/-! ## Validator set changes -/

/-- C7: when the account codec accepts the authority and the validator codec
accepts the validator address, a message whose public key is absent fails with
`ErrEmptyValidatorPubKey`, whatever the moniker. -/
theorem addValidator_nil_pubkey
    (msg : MsgAddValidator) (ac vc : Codec)
    (ha : ac.accepts msg.Authority) (hv : vc.accepts msg.ValidatorAddress)
    (hk : msg.Pubkey = none) :
    ∀ moniker : String,
      MsgAddValidator.Validate { msg with Moniker := moniker } ac vc
        = some ErrEmptyValidatorPubKey := by
  intro moniker
  simp only [Codec.accepts] at ha hv
  simp [MsgAddValidator.Validate, ha, hv, hk]

/-- Witness of C7: accepted authority and validator address, no key. -/
theorem addValidator_nil_pubkey_witness :
    MsgAddValidator.Validate ⟨"", "acc1authority", "val1operator", none⟩
        (sampleCodec "acc") (sampleCodec "val") = some ErrEmptyValidatorPubKey
    ∧ MsgAddValidator.Validate ⟨"node-1", "acc1authority", "val1operator", none⟩
        (sampleCodec "acc") (sampleCodec "val") = some ErrEmptyValidatorPubKey :=
  ⟨addValidator_nil_pubkey ⟨"node", "acc1authority", "val1operator", none⟩
      (sampleCodec "acc") (sampleCodec "val") (by decide) (by decide) rfl "",
    addValidator_nil_pubkey ⟨"node", "acc1authority", "val1operator", none⟩
      (sampleCodec "acc") (sampleCodec "val") (by decide) (by decide) rfl "node-1"⟩

/-- C8: `MsgAddValidator.Validate` runs three checks in order and stops at
the first failure. If the account codec refuses the authority, the result is
`sdkerrors.ErrInvalidAddress` wrapped as "invalid delegator address" around
the codec's error, whatever that error, the validator address and the key are;
otherwise, if the validator codec refuses the validator address, it is
`sdkerrors.ErrInvalidAddress` wrapped as "invalid validator address", even
when the key is absent too; otherwise `ErrEmptyValidatorPubKey` when the key
is absent; otherwise nil. Both wrapped errors are of kind InvalidAddress. The
result is nil exactly when both addresses are accepted and the key is
present. -/
theorem addValidator_validate_order (msg : MsgAddValidator) (ac vc : Codec) :
    (∀ err, (ac.StringToBytes msg.Authority).2 = some err →
        msg.Validate ac vc
          = some (.wrapf .ErrInvalidAddress "invalid delegator address: %s" err)
        ∧ (Error.wrapf .ErrInvalidAddress "invalid delegator address: %s" err).Is
            .ErrInvalidAddress = true)
    ∧ (ac.accepts msg.Authority →
        ∀ err, (vc.StringToBytes msg.ValidatorAddress).2 = some err →
          msg.Validate ac vc
            = some (.wrapf .ErrInvalidAddress "invalid validator address: %s" err)
          ∧ (Error.wrapf .ErrInvalidAddress "invalid validator address: %s" err).Is
              .ErrInvalidAddress = true)
    ∧ (ac.accepts msg.Authority → vc.accepts msg.ValidatorAddress →
        msg.Pubkey = none → msg.Validate ac vc = some ErrEmptyValidatorPubKey)
    ∧ (msg.Validate ac vc = none ↔
        ac.accepts msg.Authority ∧ vc.accepts msg.ValidatorAddress
          ∧ msg.Pubkey ≠ none) := by
  unfold MsgAddValidator.Validate Codec.accepts
  cases (ac.StringToBytes msg.Authority).2 <;>
    cases (vc.StringToBytes msg.ValidatorAddress).2 <;>
    by_cases hk : msg.Pubkey = none <;> simp [hk, Error.Is]

/-- Witness of C8: an empty authority, a validator address of the wrong
namespace and no key fail on the authority; an accepted authority with the
same validator address and no key fails on the validator address. -/
theorem addValidator_validate_order_witness :
    MsgAddValidator.Validate ⟨"node", "", "acc1notavalidator", none⟩
        (sampleCodec "acc") (sampleCodec "val")
      = some (.wrapf .ErrInvalidAddress "invalid delegator address: %s"
          (.foreign "empty address string is not allowed"))
    ∧ MsgAddValidator.Validate ⟨"node", "acc1authority", "acc1notavalidator", none⟩
        (sampleCodec "acc") (sampleCodec "val")
      = some (.wrapf .ErrInvalidAddress "invalid validator address: %s"
          (.foreign "decoding bech32 failed")) :=
  ⟨((addValidator_validate_order ⟨"node", "", "acc1notavalidator", none⟩
      (sampleCodec "acc") (sampleCodec "val")).1 _ rfl).1,
    ((addValidator_validate_order ⟨"node", "acc1authority", "acc1notavalidator", none⟩
      (sampleCodec "acc") (sampleCodec "val")).2.1 (by decide) _ rfl).1⟩

/-- C9: `MsgRemoveValidator.Validate` returns nil exactly when the account
codec accepts the authority and the validator codec accepts the validator
address. Only the account codec's answer on the authority and the validator
codec's answer on the validator address enter the result, so replacing the
codecs by others that agree on these two answers (and differ anywhere else,
in particular on the other field) leaves the result unchanged; a message
whose fields are each valid only in the other namespace is rejected. -/
theorem removeValidator_validate_routes (msg : MsgRemoveValidator) (ac vc : Codec) :
    (msg.Validate ac vc = none ↔
        ac.accepts msg.Authority ∧ vc.accepts msg.ValidatorAddress)
    ∧ (∀ ac2 vc2 : Codec,
        ac2.StringToBytes msg.Authority = ac.StringToBytes msg.Authority →
        vc2.StringToBytes msg.ValidatorAddress = vc.StringToBytes msg.ValidatorAddress →
        msg.Validate ac2 vc2 = msg.Validate ac vc)
    ∧ (vc.accepts msg.Authority → ¬ ac.accepts msg.Authority →
        ac.accepts msg.ValidatorAddress → ¬ vc.accepts msg.ValidatorAddress →
        msg.Validate ac vc ≠ none) := by
  refine ⟨?_, ?_, ?_⟩
  · unfold MsgRemoveValidator.Validate Codec.accepts
    cases (ac.StringToBytes msg.Authority).2 <;>
      cases (vc.StringToBytes msg.ValidatorAddress).2 <;> simp
  · intro ac2 vc2 h1 h2
    unfold MsgRemoveValidator.Validate
    rw [h1, h2]
  · intro _ hna _ _
    unfold MsgRemoveValidator.Validate
    simp only [Codec.accepts] at hna
    cases h : (ac.StringToBytes msg.Authority).2 with
    | none => exact absurd h hna
    | some e => simp

/-- Witness of C9: with one codec per namespace, a message whose authority is
a validator address and whose validator address is an account address is
rejected, with the account codec's error for the authority. -/
theorem removeValidator_validate_routes_witness :
    MsgRemoveValidator.Validate ⟨"val1operator", "acc1authority"⟩
        (sampleCodec "acc") (sampleCodec "val") ≠ none
    ∧ MsgRemoveValidator.Validate ⟨"val1operator", "acc1authority"⟩
        (sampleCodec "acc") (sampleCodec "val") = some (.foreign "decoding bech32 failed")
    ∧ MsgRemoveValidator.Validate ⟨"acc1authority", "val1operator"⟩
        (sampleCodec "acc") (sampleCodec "val") = none :=
  ⟨(removeValidator_validate_routes ⟨"val1operator", "acc1authority"⟩
      (sampleCodec "acc") (sampleCodec "val")).2.2
      (by decide) (by decide) (by decide) (by decide),
    rfl,
    (removeValidator_validate_routes ⟨"acc1authority", "val1operator"⟩
      (sampleCodec "acc") (sampleCodec "val")).1.2 ⟨by decide, by decide⟩⟩

/-- C10, as stated, fails: with a codec that refuses the empty string with
its own plain error, as the library's bech32 codec does, the failure for an
empty authority is that error, which is not of kind InvalidAddress. -/
theorem removeValidator_empty_authority_counterexample :
    ¬ (sampleCodec "acc").accepts ""
    ∧ MsgRemoveValidator.Validate ⟨"", "val1operator"⟩
        (sampleCodec "acc") (sampleCodec "val")
      = some (.foreign "empty address string is not allowed")
    ∧ ¬ ∃ err, MsgRemoveValidator.Validate ⟨"", "val1operator"⟩
          (sampleCodec "acc") (sampleCodec "val") = some err
        ∧ err.Is .ErrInvalidAddress = true := by
  refine ⟨by decide, rfl, ?_⟩
  rintro ⟨err, h, hk⟩
  have he : err = .foreign "empty address string is not allowed" :=
    (Option.some.inj h).symm
  rw [he] at hk
  exact absurd hk (by decide)

/-- C10, amended: for a message whose authority is the empty string, every
validator address and every pair of codecs whose account codec refuses the
empty string, `Validate` fails with the very error the account codec returns
for the empty string, returned as it is: no InvalidAddress wrapping is put
around it. -/
theorem removeValidator_empty_authority
    (msg : MsgRemoveValidator) (ac vc : Codec)
    (hempty : msg.Authority = "") (hrefuse : ¬ ac.accepts "") :
    ∃ err, (ac.StringToBytes "").2 = some err
      ∧ (∀ validatorAddress : String,
          MsgRemoveValidator.Validate
            { msg with ValidatorAddress := validatorAddress } ac vc = some err) := by
  simp only [Codec.accepts] at hrefuse
  cases h : (ac.StringToBytes "").2 with
  | none => exact absurd h hrefuse
  | some e =>
    refine ⟨e, rfl, ?_⟩
    intro validatorAddress
    simp [MsgRemoveValidator.Validate, hempty, h]

/-- Witness of C10, amended: the scenario of the specification. -/
theorem removeValidator_empty_authority_witness :
    ∃ err, ((sampleCodec "acc").StringToBytes "").2 = some err
      ∧ (∀ validatorAddress : String,
          MsgRemoveValidator.Validate ⟨"", validatorAddress⟩
            (sampleCodec "acc") (sampleCodec "val") = some err) :=
  removeValidator_empty_authority ⟨"", "val1operator"⟩
    (sampleCodec "acc") (sampleCodec "val") rfl (by decide)

/-! ## Fee pool spending -/

theorem spendFeePool_validate_eq_none (msg : MsgSpendFeePool) (ac : Codec) :
    msg.Validate ac = .ok none ↔
      ac.accepts msg.Authority ∧ ac.accepts msg.Recipient
        ∧ Coins.IsValid msg.Amount = .ok true := by
  unfold MsgSpendFeePool.Validate Codec.accepts
  cases (ac.StringToBytes msg.Authority).2 <;> cases (ac.StringToBytes msg.Recipient).2 <;>
    simp
  cases h : Coins.IsValid msg.Amount with
  | error f => simp
  | ok b => cases b <;> simp

/-- A valid amount whose coins are all zero holds no coin: a valid amount has
only positive coins. -/
theorem coins_valid_zero_eq_nil (coins : Coins)
    (hv : Coins.IsValid coins = .ok true) (hz : Coins.IsZero coins = .ok true) :
    coins = [] := by
  cases coins with
  | nil => rfl
  | cons coin rest =>
    exfalso
    obtain ⟨denom, amount⟩ := coin
    cases amount with
    | none =>
      simp [Coins.IsZero, Coin.IsZero] at hz
    | some a =>
      by_cases hpos : 0 < a
      · have hne : a ≠ 0 := by omega
        simp [Coins.IsZero, Coin.IsZero, hne] at hz
      · unfold Coins.IsValid Coins.Validate at hv
        cases hd : ValidateDenom denom with
        | some err => simp [hd] at hv
        | none => simp [hd, Coin.IsPositive, hpos] at hv

/-- C11: `MsgSpendFeePool.Validate` returns nil exactly when the codec accepts
the authority and the recipient and the amount is valid. No non-zero check is
applied: with both addresses accepted every amount that is valid and zero is
accepted (the amount without coins is one, and the only one), while
`MsgInitiateTokenWithdrawal` and `MsgFinalizeTokenDeposit` reject every zero
amount. -/
theorem spendFeePool_validate_iff (msg : MsgSpendFeePool) (ac : Codec) :
    (msg.Validate ac = .ok none ↔
        ac.accepts msg.Authority ∧ ac.accepts msg.Recipient
          ∧ Coins.IsValid msg.Amount = .ok true)
    ∧ (ac.accepts msg.Authority → ac.accepts msg.Recipient →
        ∀ amount : Coins, Coins.IsValid amount = .ok true → Coins.IsZero amount = .ok true →
          MsgSpendFeePool.Validate { msg with Amount := amount } ac = .ok none)
    ∧ (Coins.IsValid [] = .ok true ∧ Coins.IsZero [] = .ok true
        ∧ ∀ amount : Coins, Coins.IsValid amount = .ok true →
            Coins.IsZero amount = .ok true → amount = [])
    ∧ (∀ (w : MsgInitiateTokenWithdrawal) (d : MsgFinalizeTokenDeposit),
        (w.Amount.Amount = some 0 → w.Validate ac ≠ .ok none)
        ∧ (d.Amount.Amount = some 0 → d.Validate ac ≠ .ok none)) := by
  refine ⟨spendFeePool_validate_eq_none msg ac, ?_, ⟨rfl, rfl, coins_valid_zero_eq_nil⟩, ?_⟩
  · intro h1 h2 amount hv _
    exact (spendFeePool_validate_eq_none _ ac).2 ⟨h1, h2, hv⟩
  · intro w d
    constructor
    · intro hz h
      rw [initiateTokenWithdrawal_validate_eq, Except.ok.injEq, firstFailure_eq_none] at h
      have := (amountCheck_eq_none w.Amount).1 (h _ (by simp))
      exact this.2 hz
    · intro hz h
      rw [finalizeTokenDeposit_validate_eq, Except.ok.injEq, firstFailure_eq_none] at h
      have := (amountCheck_eq_none d.Amount).1 (h _ (by simp))
      exact this.2 hz

/-- Witness of C11: a spend of no coins between accepted addresses is
accepted, and so is a spend of two positive coins in order. -/
theorem spendFeePool_validate_iff_witness :
    MsgSpendFeePool.Validate ⟨"acc1authority", "acc1recipient", []⟩ (sampleCodec "acc")
        = .ok none
    ∧ MsgSpendFeePool.Validate
        ⟨"acc1authority", "acc1recipient", [⟨"uatom", some 3⟩, ⟨"uinit", some 5⟩]⟩
        (sampleCodec "acc") = .ok none :=
  ⟨(spendFeePool_validate_iff ⟨"acc1authority", "acc1recipient", [⟨"uinit", some 1⟩]⟩
      (sampleCodec "acc")).2.1 (by decide) (by decide) [] rfl rfl,
    (spendFeePool_validate_iff
      ⟨"acc1authority", "acc1recipient", [⟨"uatom", some 3⟩, ⟨"uinit", some 5⟩]⟩
      (sampleCodec "acc")).1.2 ⟨by decide, by decide, rfl⟩⟩

/-- C12, as stated, fails: a spend whose amount is not valid (one coin of
amount zero) between accepted addresses fails with `sdkerrors.ErrInvalidRequest`
wrapped as "invalid spend amount", which is not of kind InvalidAmount. -/
theorem spendFeePool_invalid_amount_counterexample :
    (sampleCodec "acc").accepts "acc1authority"
    ∧ (sampleCodec "acc").accepts "acc1recipient"
    ∧ Coins.IsValid [⟨"uinit", some 0⟩] = .ok false
    ∧ MsgSpendFeePool.Validate ⟨"acc1authority", "acc1recipient", [⟨"uinit", some 0⟩]⟩
        (sampleCodec "acc") = .ok (some (.wrap .ErrInvalidRequest "invalid spend amount"))
    ∧ MsgSpendFeePool.Validate ⟨"acc1authority", "acc1recipient", [⟨"uinit", some 0⟩]⟩
        (sampleCodec "acc") ≠ .ok (some ErrInvalidAmount)
    ∧ (Error.wrap .ErrInvalidRequest "invalid spend amount").Is ErrInvalidAmount = false := by
  refine ⟨by decide, by decide, rfl, rfl, ?_, by decide⟩
  intro h
  have h2 : some (Error.wrap .ErrInvalidRequest "invalid spend amount")
      = some ErrInvalidAmount := Except.ok.inj h
  exact absurd h2 (by decide)

/-- A spend holding a coin whose amount is nil, between accepted addresses:
the validity test reads through the nil amount, so neither `IsValid` nor
`Validate` returns. -/
theorem spendFeePool_nil_amount_aborts :
    Coins.IsValid [⟨"uinit", none⟩] = .error .nilPointerDereference
    ∧ MsgSpendFeePool.Validate ⟨"acc1authority", "acc1recipient", [⟨"uinit", none⟩]⟩
        (sampleCodec "acc") = .error .nilPointerDereference :=
  ⟨rfl, rfl⟩

/-- C12, amended: for a spend whose authority and recipient are accepted and
whose amount `IsValid` reports as not valid, that is, `IsValid` returns
false, `Validate` fails with `sdkerrors.ErrInvalidRequest` wrapped as
"invalid spend amount": the failure is of kind InvalidRequest, not the
`ErrInvalidAmount` of the two bridge transfers. The hypothesis `hv` is that
`IsValid` returns false; an amount on which `IsValid` does not return (a coin
whose amount is nil) is not covered. -/
theorem spendFeePool_invalid_amount
    (msg : MsgSpendFeePool) (ac : Codec)
    (ha : ac.accepts msg.Authority) (hr : ac.accepts msg.Recipient)
    (hv : Coins.IsValid msg.Amount = .ok false) :
    msg.Validate ac = .ok (some (.wrap .ErrInvalidRequest "invalid spend amount"))
    ∧ (Error.wrap .ErrInvalidRequest "invalid spend amount").Is .ErrInvalidRequest = true
    ∧ (Error.wrap .ErrInvalidRequest "invalid spend amount").Is ErrInvalidAmount = false := by
  simp only [Codec.accepts] at ha hr
  refine ⟨?_, by decide, by decide⟩
  simp [MsgSpendFeePool.Validate, ha, hr, hv]

/-- Witness of C12, amended: two coins out of order between accepted
addresses. -/
theorem spendFeePool_invalid_amount_witness :
    MsgSpendFeePool.Validate
        ⟨"acc1authority", "acc1recipient", [⟨"uinit", some 3⟩, ⟨"uatom", some 5⟩]⟩
        (sampleCodec "acc")
      = .ok (some (.wrap .ErrInvalidRequest "invalid spend amount")) :=
  (spendFeePool_invalid_amount
    ⟨"acc1authority", "acc1recipient", [⟨"uinit", some 3⟩, ⟨"uatom", some 5⟩]⟩
    (sampleCodec "acc") (by decide) (by decide) rfl).1

/-! ## Parameter updates -/

/-- C13: `MsgUpdateParams.Validate` delegates to the parameters' own
validation and propagates its result unchanged. When the codec accepts the
authority the result is exactly the result of `Params.Validate(ac)`: nil when
it is nil, the very same error otherwise (and the outcome of the call through
the pointer in general). When the codec refuses the authority the result is
the codec's error, whatever the parameters are. -/
theorem updateParams_validate_delegates (msg : MsgUpdateParams) (ac : Codec) :
    (ac.accepts msg.Authority → ∀ params : Params, msg.Params = some params →
        msg.Validate ac = .ok (params.Validate ac))
    ∧ (ac.accepts msg.Authority →
        msg.Validate ac
          = Except.map (fun params : Params => params.Validate ac) (deref msg.Params))
    ∧ (∀ err, (ac.StringToBytes msg.Authority).2 = some err →
        ∀ params : Option Params,
          MsgUpdateParams.Validate { msg with Params := params } ac = .ok (some err)) := by
  refine ⟨?_, ?_, ?_⟩
  · intro ha params hp
    simp only [Codec.accepts] at ha
    unfold MsgUpdateParams.Validate
    rw [ha, hp]
    cases h : params.Validate ac <;> simp [deref, h]
  · intro ha
    simp only [Codec.accepts] at ha
    unfold MsgUpdateParams.Validate
    rw [ha]
    cases hp : msg.Params with
    | none => simp [deref, Except.map]
    | some params => cases h : params.Validate ac <;> simp [deref, Except.map, h]
  · intro err he params
    simp [MsgUpdateParams.Validate, he]

/-- Witness of C13: with an accepted authority, parameters whose validation
fails pass their error on and parameters whose validation succeeds give nil;
with a refused authority the codec's error is returned. -/
theorem updateParams_validate_delegates_witness :
    MsgUpdateParams.Validate
        ⟨"acc1authority", some ⟨fun _ => some (.foreign "max validators is zero")⟩⟩
        (sampleCodec "acc") = .ok (some (.foreign "max validators is zero"))
    ∧ MsgUpdateParams.Validate ⟨"acc1authority", some ⟨fun _ => none⟩⟩
        (sampleCodec "acc") = .ok none
    ∧ MsgUpdateParams.Validate ⟨"", none⟩ (sampleCodec "acc")
        = .ok (some (.foreign "empty address string is not allowed")) :=
  ⟨(updateParams_validate_delegates
      ⟨"acc1authority", some ⟨fun _ => some (.foreign "max validators is zero")⟩⟩
      (sampleCodec "acc")).1 (by decide) _ rfl,
    (updateParams_validate_delegates ⟨"acc1authority", some ⟨fun _ => none⟩⟩
      (sampleCodec "acc")).1 (by decide) _ rfl,
    (updateParams_validate_delegates ⟨"", some ⟨fun _ => none⟩⟩
      (sampleCodec "acc")).2.2 _ rfl none⟩

/-- C18, what the code does: for a message built by `NewMsgUpdateParams` with
nil parameters and an authority the codec accepts, `Validate` goes through the
nil pointer and aborts; it returns neither nil nor an error. -/
theorem updateParams_nil_params_aborts (authority : String) (ac : Codec)
    (ha : ac.accepts authority) :
    (NewMsgUpdateParams authority none).Validate ac = .error .nilPointerDereference
    ∧ ∀ result : Option Error,
        (NewMsgUpdateParams authority none).Validate ac ≠ .ok result := by
  simp only [Codec.accepts] at ha
  have h : (NewMsgUpdateParams authority none).Validate ac
      = .error .nilPointerDereference := by
    simp [MsgUpdateParams.Validate, NewMsgUpdateParams, ha, deref]
  refine ⟨h, ?_⟩
  intro result hr
  rw [h] at hr
  cases hr

/-- Witness of C18: the failing input, with the sample codec for the account
namespace. -/
theorem updateParams_nil_params_aborts_witness :
    (NewMsgUpdateParams "acc1authority" none).Validate (sampleCodec "acc")
      = .error .nilPointerDereference :=
  (updateParams_nil_params_aborts "acc1authority" (sampleCodec "acc") (by decide)).1

/-! ## Constructors -/

/-- C14: the constructors `NewMsgRemoveValidator`,
`NewMsgInitiateTokenWithdrawal`, `NewMsgFinalizeTokenDeposit` and
`NewMsgUpdateParams` succeed on every input and store each argument as it is
in the field of its name; they check nothing, so a constructed message may be
invalid: a removal with an empty authority, a deposit with sequence 0 and a
deposit of a zero amount are built without error and then refused by
`Validate`. -/
theorem constructors_store_verbatim
    (authority valAddr sender fromAddr toAddr : String) (amount : Coin)
    (sequence : Nat) (data : List Nat) (params : Option Params) :
    NewMsgRemoveValidator authority valAddr
        = (some { Authority := authority, ValidatorAddress := valAddr }, none)
    ∧ ((NewMsgInitiateTokenWithdrawal sender toAddr amount).Sender = sender
        ∧ (NewMsgInitiateTokenWithdrawal sender toAddr amount).To = toAddr
        ∧ (NewMsgInitiateTokenWithdrawal sender toAddr amount).Amount = amount)
    ∧ ((NewMsgFinalizeTokenDeposit sender fromAddr toAddr amount sequence data).Sender = sender
        ∧ (NewMsgFinalizeTokenDeposit sender fromAddr toAddr amount sequence data).From
            = fromAddr
        ∧ (NewMsgFinalizeTokenDeposit sender fromAddr toAddr amount sequence data).To = toAddr
        ∧ (NewMsgFinalizeTokenDeposit sender fromAddr toAddr amount sequence data).Amount
            = amount
        ∧ (NewMsgFinalizeTokenDeposit sender fromAddr toAddr amount sequence data).Sequence
            = sequence
        ∧ (NewMsgFinalizeTokenDeposit sender fromAddr toAddr amount sequence data).Data = data)
    ∧ ((NewMsgUpdateParams authority params).Authority = authority
        ∧ (NewMsgUpdateParams authority params).Params = params)
    ∧ (∃ msg : MsgRemoveValidator,
        NewMsgRemoveValidator "" "val1operator" = (some msg, none)
        ∧ msg.Validate (sampleCodec "acc") (sampleCodec "val")
            = some (.foreign "empty address string is not allowed"))
    ∧ (NewMsgFinalizeTokenDeposit "acc1a" "acc1b" "acc1c" ⟨"uinit", some 7⟩ 0 []).Validate
        (sampleCodec "acc") = .ok (some ErrInvalidSequence)
    ∧ (NewMsgFinalizeTokenDeposit "acc1a" "acc1b" "acc1c" ⟨"uinit", some 0⟩ 1 []).Validate
        (sampleCodec "acc") = .ok (some ErrInvalidAmount) :=
  ⟨rfl, ⟨rfl, rfl, rfl⟩, ⟨rfl, rfl, rfl, rfl, rfl, rfl⟩, ⟨rfl, rfl⟩,
    ⟨{ Authority := "", ValidatorAddress := "val1operator" }, rfl, rfl⟩, rfl, rfl⟩

theorem setMsgs_all_pack {V : Type} (pack : V → Option Any × Option Error)
    (messages : List V) (hall : ∀ m ∈ messages, (pack m).2 = none) :
    sdktx.SetMsgs pack messages = (messages.map (fun m => (pack m).1), none) := by
  induction messages with
  | nil => rfl
  | cons m rest ih =>
    have hm : (pack m).2 = none := hall m (by simp)
    have hrest := ih (fun x hx => hall x (by simp [hx]))
    rcases hp : pack m with ⟨any, e⟩
    rw [hp] at hm
    simp only at hm
    subst hm
    simp [sdktx.SetMsgs, hp, hrest]

theorem setMsgs_first_failure {V : Type} (pack : V → Option Any × Option Error)
    (pre : List V) (m : V) (post : List V) (err : Error)
    (hpre : ∀ x ∈ pre, (pack x).2 = none) (hm : (pack m).2 = some err) :
    sdktx.SetMsgs pack (pre ++ m :: post) = ([], some err) := by
  induction pre with
  | nil =>
    rcases hp : pack m with ⟨any, e⟩
    rw [hp] at hm
    simp only at hm
    subst hm
    simp [sdktx.SetMsgs, hp]
  | cons x rest ih =>
    have hx : (pack x).2 = none := hpre x (by simp)
    have hrest := ih (fun y hy => hpre y (by simp [hy]))
    rcases hp : pack x with ⟨any, e⟩
    rw [hp] at hx
    simp only at hx
    subst hx
    simp [sdktx.SetMsgs, hp, hrest]

/-- C16: `NewMsgExecuteMessages` packs the batch. When every sub-message
packs, it returns, without error, the message with the given sender whose
`Messages` are the packings of the sub-messages, one for one and in order (so
of the same length); when a sub-message does not pack, those before it
packing, it returns that packing error and no message. It validates nothing:
from an empty list it builds without error a message that `Validate` refuses
with the empty-batch failure when the sender is accepted, and from a
non-empty list that packs it builds a message that passes `Validate` when the
sender is accepted. -/
theorem newMsgExecuteMessages_packs {V : Type} (pack : V → Option Any × Option Error)
    (sender : String) (messages : List V) :
    ((∀ m ∈ messages, (pack m).2 = none) →
        NewMsgExecuteMessages pack sender messages
          = (some { Sender := sender, Messages := messages.map (fun m => (pack m).1) }, none)
        ∧ (messages.map (fun m => (pack m).1)).length = messages.length)
    ∧ (∀ (pre : List V) (m : V) (post : List V) (err : Error),
        messages = pre ++ m :: post → (∀ x ∈ pre, (pack x).2 = none) →
        (pack m).2 = some err →
        NewMsgExecuteMessages pack sender messages = (none, some err))
    ∧ (∀ ac : Codec, ac.accepts sender →
        ∃ msg : MsgExecuteMessages,
          NewMsgExecuteMessages pack sender [] = (some msg, none)
          ∧ msg.Validate ac
              = some (.wrap .ErrNoProposalMsgs "Msgs length must be non-zero"))
    ∧ (∀ ac : Codec, ac.accepts sender → messages ≠ [] →
        (∀ m ∈ messages, (pack m).2 = none) →
        ∃ msg : MsgExecuteMessages,
          NewMsgExecuteMessages pack sender messages = (some msg, none)
          ∧ msg.Validate ac = none) := by
  have built : (∀ m ∈ messages, (pack m).2 = none) →
      NewMsgExecuteMessages pack sender messages
        = (some { Sender := sender, Messages := messages.map (fun m => (pack m).1) },
            none) := by
    intro hall
    simp [NewMsgExecuteMessages, setMsgs_all_pack pack messages hall]
  refine ⟨fun hall => ⟨built hall, by simp⟩, ?_, ?_, ?_⟩
  · intro pre m post err hsplit hpre hm
    simp [NewMsgExecuteMessages, hsplit, setMsgs_first_failure pack pre m post err hpre hm]
  · intro ac ha
    simp only [Codec.accepts] at ha
    refine ⟨{ Sender := sender, Messages := [] }, rfl, ?_⟩
    simp [MsgExecuteMessages.Validate, ha]
  · intro ac ha hne hall
    simp only [Codec.accepts] at ha
    refine ⟨_, built hall, ?_⟩
    simp [MsgExecuteMessages.Validate, ha, hne]

/-- Witness of C16: two sub-messages that pack give a message of two
payloads in the same order; a batch whose second sub-message does not pack
gives the packing error and no message. -/
theorem newMsgExecuteMessages_packs_witness :
    NewMsgExecuteMessages samplePack "acc1sender" [("a.MsgOne", [1]), ("b.MsgTwo", [2, 3])]
        = (some ⟨"acc1sender", [some ⟨"/a.MsgOne", [1]⟩, some ⟨"/b.MsgTwo", [2, 3]⟩]⟩, none)
    ∧ NewMsgExecuteMessages samplePack "acc1sender" [("a.MsgOne", [1]), ("", [2, 3])]
        = (none, some (.foreign "cannot pack a value without a type")) :=
  ⟨((newMsgExecuteMessages_packs samplePack "acc1sender"
      [("a.MsgOne", [1]), ("b.MsgTwo", [2, 3])]).1 (by decide)).1,
    (newMsgExecuteMessages_packs samplePack "acc1sender"
      [("a.MsgOne", [1]), ("", [2, 3])]).2.1 [("a.MsgOne", [1])] ("", [2, 3]) [] _
      rfl (by decide) rfl⟩

/-- C17: `NewMsgAddValidator` with a nil public key returns, without error and
whatever the packing function is (none is attempted), the message with an
absent `Pubkey` and the moniker, authority and validator address given; that
message is refused by `Validate` with `ErrEmptyValidatorPubKey` when its two
addresses are accepted. With a key that packs, the message has the packed
payload as `Pubkey` and passes `Validate` when its two addresses are
accepted; with a key that does not pack, the packing error is returned and
no message. -/
theorem newMsgAddValidator_pubkey {K : Type} (pack : K → Option Any × Option Error)
    (moniker authority valAddr : String) (ac vc : Codec) :
    (∀ pack2 : K → Option Any × Option Error,
        NewMsgAddValidator pack2 moniker authority valAddr none
          = (some { Moniker := moniker, Authority := authority,
                    ValidatorAddress := valAddr, Pubkey := none }, none))
    ∧ (ac.accepts authority → vc.accepts valAddr →
        MsgAddValidator.Validate
          { Moniker := moniker, Authority := authority, ValidatorAddress := valAddr,
            Pubkey := none } ac vc = some ErrEmptyValidatorPubKey)
    ∧ (∀ (key : K) (any : Any), pack key = (some any, none) →
        NewMsgAddValidator pack moniker authority valAddr (some key)
          = (some { Moniker := moniker, Authority := authority,
                    ValidatorAddress := valAddr, Pubkey := some any }, none)
        ∧ (ac.accepts authority → vc.accepts valAddr →
            MsgAddValidator.Validate
              { Moniker := moniker, Authority := authority, ValidatorAddress := valAddr,
                Pubkey := some any } ac vc = none))
    ∧ (∀ (key : K) (err : Error), (pack key).2 = some err →
        NewMsgAddValidator pack moniker authority valAddr (some key) = (none, some err)) := by
  refine ⟨fun _ => rfl, ?_, ?_, ?_⟩
  · intro ha hv
    simp only [Codec.accepts] at ha hv
    simp [MsgAddValidator.Validate, ha, hv]
  · intro key any hp
    refine ⟨by simp [NewMsgAddValidator, hp], ?_⟩
    intro ha hv
    simp only [Codec.accepts] at ha hv
    simp [MsgAddValidator.Validate, ha, hv]
  · intro key err hp
    rcases hk : pack key with ⟨any, e⟩
    rw [hk] at hp
    simp only at hp
    subst hp
    simp [NewMsgAddValidator, hk]

/-- Witness of C17: a key that packs, and a key that does not. -/
theorem newMsgAddValidator_pubkey_witness :
    NewMsgAddValidator samplePack "node" "acc1authority" "val1operator"
        (some ("crypto.PubKey", [9, 9]))
      = (some ⟨"node", "acc1authority", "val1operator", some ⟨"/crypto.PubKey", [9, 9]⟩⟩,
          none)
    ∧ MsgAddValidator.Validate
        ⟨"node", "acc1authority", "val1operator", some ⟨"/crypto.PubKey", [9, 9]⟩⟩
        (sampleCodec "acc") (sampleCodec "val") = none
    ∧ NewMsgAddValidator samplePack "node" "acc1authority" "val1operator" (some ("", []))
      = (none, some (.foreign "cannot pack a value without a type"))
    ∧ MsgAddValidator.Validate ⟨"node", "acc1authority", "val1operator", none⟩
        (sampleCodec "acc") (sampleCodec "val") = some ErrEmptyValidatorPubKey :=
  ⟨((newMsgAddValidator_pubkey samplePack "node" "acc1authority" "val1operator"
      (sampleCodec "acc") (sampleCodec "val")).2.2.1 ("crypto.PubKey", [9, 9]) _ rfl).1,
    ((newMsgAddValidator_pubkey samplePack "node" "acc1authority" "val1operator"
      (sampleCodec "acc") (sampleCodec "val")).2.2.1 ("crypto.PubKey", [9, 9]) _ rfl).2
      (by decide) (by decide),
    (newMsgAddValidator_pubkey samplePack "node" "acc1authority" "val1operator"
      (sampleCodec "acc") (sampleCodec "val")).2.2.2 ("", []) _ rfl,
    (newMsgAddValidator_pubkey samplePack "node" "acc1authority" "val1operator"
      (sampleCodec "acc") (sampleCodec "val")).2.1 (by decide) (by decide)⟩

/-! ## Unpacking -/

theorem unpackInterfaces_eq_firstFailure (unpacker : AnyUnpacker)
    (anys : List (Option Any)) :
    sdktx.UnpackInterfaces unpacker anys = firstFailure (anys.map unpacker.UnpackAny) := by
  induction anys with
  | nil => rfl
  | cons any rest ih =>
    cases h : unpacker.UnpackAny any <;> simp [sdktx.UnpackInterfaces, firstFailure, h, ih]

theorem firstFailure_append_some (pre post : List (Option Error)) (err : Error)
    (hpre : ∀ c ∈ pre, c = none) :
    firstFailure (pre ++ some err :: post) = some err := by
  induction pre with
  | nil => rfl
  | cons c rest ih =>
    have hc : c = none := hpre c (by simp)
    subst hc
    simpa [firstFailure] using ih (fun x hx => hpre x (by simp [hx]))

/-- C19: `MsgExecuteMessages.UnpackInterfaces` resolves the entries of the
batch in order: its result is the first failure of the unpacker over
`Messages`. It returns nil exactly when the unpacker succeeds on every entry,
so nil on an empty batch, and otherwise the error of the first entry that
does not unpack. `Validate` takes no unpacker and unpacks nothing, so a
message can pass `Validate` and still fail `UnpackInterfaces`. -/
theorem executeMessages_unpackInterfaces (m : MsgExecuteMessages) (unpacker : AnyUnpacker) :
    m.UnpackInterfaces unpacker = firstFailure (m.Messages.map unpacker.UnpackAny)
    ∧ (m.UnpackInterfaces unpacker = none ↔
        ∀ any ∈ m.Messages, unpacker.UnpackAny any = none)
    ∧ (m.Messages = [] → m.UnpackInterfaces unpacker = none)
    ∧ (∀ (pre : List (Option Any)) (any : Option Any) (post : List (Option Any))
        (err : Error), m.Messages = pre ++ any :: post →
        (∀ x ∈ pre, unpacker.UnpackAny x = none) → unpacker.UnpackAny any = some err →
        m.UnpackInterfaces unpacker = some err)
    ∧ (∃ (msg : MsgExecuteMessages) (ac : Codec) (u : AnyUnpacker),
        msg.Validate ac = none ∧ msg.UnpackInterfaces u ≠ none) := by
  have key := unpackInterfaces_eq_firstFailure unpacker m.Messages
  refine ⟨key, ?_, ?_, ?_, ?_⟩
  · unfold MsgExecuteMessages.UnpackInterfaces
    rw [key, firstFailure_eq_none]
    simp
  · intro h
    unfold MsgExecuteMessages.UnpackInterfaces
    rw [h]
    rfl
  · intro pre any post err hsplit hpre hany
    unfold MsgExecuteMessages.UnpackInterfaces
    rw [key, hsplit, List.map_append, List.map_cons, hany]
    apply firstFailure_append_some
    intro c hc
    obtain ⟨x, hx, rfl⟩ := List.mem_map.1 hc
    exact hpre x hx
  · refine ⟨⟨"acc1sender", [some ⟨"/no.such.Type", [1]⟩]⟩, sampleCodec "acc",
      sampleUnpacker ["/opchild.MsgAddValidator"], rfl, by decide⟩

/-- Witness of C19: a batch of an accepted sender whose second entry has an
unregistered type tag passes `Validate` and fails `UnpackInterfaces` with the
error of that entry. -/
theorem executeMessages_unpackInterfaces_witness :
    MsgExecuteMessages.Validate
        ⟨"acc1sender", [some ⟨"/opchild.MsgAddValidator", [1]⟩, some ⟨"/no.such.Type", [2]⟩,
          some ⟨"/other.Type", [3]⟩]⟩ (sampleCodec "acc") = none
    ∧ MsgExecuteMessages.UnpackInterfaces
        ⟨"acc1sender", [some ⟨"/opchild.MsgAddValidator", [1]⟩, some ⟨"/no.such.Type", [2]⟩,
          some ⟨"/other.Type", [3]⟩]⟩ (sampleUnpacker ["/opchild.MsgAddValidator"])
      = some (.foreign "no concrete type registered for type URL /no.such.Type") :=
  ⟨rfl,
    (executeMessages_unpackInterfaces
      ⟨"acc1sender", [some ⟨"/opchild.MsgAddValidator", [1]⟩, some ⟨"/no.such.Type", [2]⟩,
        some ⟨"/other.Type", [3]⟩]⟩ (sampleUnpacker ["/opchild.MsgAddValidator"])).2.2.2.1
      [some ⟨"/opchild.MsgAddValidator", [1]⟩] (some ⟨"/no.such.Type", [2]⟩)
      [some ⟨"/other.Type", [3]⟩] _ rfl (by decide) rfl⟩

end Opchild
